import Mathlib

/-!
Verification of the Strawberry collection filter
(`src/collection/collectionfilter.cpp`).

The development shallowly embeds the filter's parser and evaluator:

* Qt string helpers (`QString::section`, `::remove`, `::trimmed`,
  `::contains` with `Qt::CaseInsensitive`, whitespace splitting, the
  whitespace-around-operator normalisation regexes) are modelled on
  `List Char`, with `String` wrappers.  Characters are compared with
  `Char.toLower`, which performs the ASCII case folding relevant to the
  field names and operators handled by this code.
* `QVariant` values become the closed sum `QVal`; `metaType` comparison
  becomes comparison of the constructor tag.
* `CollectionItem` becomes a rose tree carrying the fields the filter
  reads: type, container level, display text, metadata and children.
  The parent chain is passed explicitly as the list of ancestors.
* Machine integers: `int` predicate values are produced by `qtoInt?`
  with the `[-2^31, 2^31-1]` range check, `uint` by `qtoUInt?` with the
  `< 2^32` check, and comparisons are on `Int`/`Nat` (no arithmetic is
  performed on them, so no overflow can occur after parsing).
* Bounded recursion (`QString::remove`, the normalisation regex passes,
  the token loop whose index is advanced by phrase absorption) uses a
  fuel argument initialised with the length of the input; every step
  consumes at least one element, so the fuel never runs out and the
  functions compute the same results as the unbounded loops.

Code that the claims need but that lives outside the copied sources
(`Song`'s search-column lists and typed accessors, `Utilities` search
parsers, `kNsecPerSec`, `CollectionModel::Grouping::operator[]`) is
modelled from the spec; those definitions carry a
`Modelled from the spec:` doc comment.
-/

/-! ## Characters and low-level string helpers -/

/-- Whitespace as matched by the `\s` regex class used in the filter
normalisation and token splitting (ASCII space, tab, LF, VT, FF, CR). -/
def isWS (c : Char) : Bool :=
  c == ' ' || c == '\t' || c == '\n' || c == '\x0b' || c == '\x0c' || c == '\r'

/-- `startsWithL hay pat`: `pat` is a leading run of `hay`. -/
def startsWithL : List Char → List Char → Bool
  | _, [] => true
  | [], _ :: _ => false
  | a :: as, b :: bs => a == b && startsWithL as bs

/-- `hasSubL pat hay`: `pat` occurs contiguously in `hay`
(`QString::contains` on exact characters). -/
def hasSubL (pat : List Char) : List Char → Bool
  | [] => startsWithL [] pat
  | c :: t => startsWithL (c :: t) pat || hasSubL pat t

/-- ASCII lowering of a character list. -/
def lowerChars (cs : List Char) : List Char := cs.map Char.toLower

/-- `QString::contains(pat, Qt::CaseInsensitive)`. -/
def containsCI (hay pat : String) : Bool :=
  hasSubL (lowerChars pat.toList) (lowerChars hay.toList)

/-- `QString::compare(a, b, Qt::CaseInsensitive) == 0`. -/
def compareCI (a b : String) : Bool :=
  lowerChars a.toList == lowerChars b.toList

/-- Case-insensitive equality of two strings (element test of
`QStringList::contains(f, Qt::CaseInsensitive)`). -/
def eqCI (a b : String) : Bool :=
  lowerChars a.toList == lowerChars b.toList

/-- `QStringList::contains(f, Qt::CaseInsensitive)`. -/
def memCI (l : List String) (f : String) : Bool := l.any (fun x => eqCI f x)

/-- `QString::trimmed`. -/
def trimChars (cs : List Char) : List Char :=
  ((cs.dropWhile isWS).reverse.dropWhile isWS).reverse

/-- `QString::trimmed` on `String`. -/
def trimS (s : String) : String := String.mk (trimChars s.toList)

/-- `QString::remove(QChar)`: delete every occurrence of a character. -/
def removeAllChar (c : Char) (s : String) : String :=
  String.mk (s.toList.filter (fun x => !(x == c)))

/-- Number of occurrences of a character (`QString::count(QChar)`). -/
def countChar (c : Char) (s : String) : Nat := s.toList.count c

/-- Index of the first occurrence of `pat` in `s`, if any. -/
def findSubIdx (pat : List Char) : List Char → Option Nat
  | [] => if startsWithL [] pat then some 0 else none
  | c :: cs =>
    if startsWithL (c :: cs) pat then some 0
    else (findSubIdx pat cs).map (· + 1)

/-- `QString::section(sep, 0, 0)`: the text before the first occurrence
of `sep` (the whole string when `sep` does not occur). -/
def takeBeforeSub (sep : String) (s : String) : String :=
  match findSubIdx sep.toList s.toList with
  | none => s
  | some i => String.mk (s.toList.take i)

/-- `QString::section(sep, 1, -1)`: the text after the first occurrence
of `sep` (sections 1.. joined by `sep` reproduce exactly that suffix);
empty when `sep` does not occur. -/
def afterFirstSub (sep : String) (s : String) : String :=
  match findSubIdx sep.toList s.toList with
  | none => ""
  | some i => String.mk (s.toList.drop (i + sep.toList.length))

/-- One removal step of `QString::remove(QString)` starting the search
at index `start`; the fuel bounds the number of removals. -/
def qRemoveAllAux (pat : List Char) : Nat → List Char → Nat → List Char
  | 0, s, _ => s
  | fuel + 1, s, start =>
    match (findSubIdx pat (s.drop start)).map (· + start) with
    | none => s
    | some i => qRemoveAllAux pat fuel (s.take i ++ s.drop (i + pat.length)) i

/-- `QString::remove(QString)`: repeatedly delete the next occurrence,
continuing the search at the deletion point. -/
def qRemoveAll (pat : String) (s : String) : String :=
  if pat = "" then s
  else String.mk (qRemoveAllAux pat.toList s.toList.length s.toList 0)

/-- Split a character list at every occurrence of `sep`, keeping empty
parts (`QString::section` sectioning). -/
def splitOnCharAux (sep : Char) : List Char → List Char → List String
  | [], acc => [String.mk acc.reverse]
  | c :: cs, acc =>
    if c == sep then String.mk acc.reverse :: splitOnCharAux sep cs []
    else splitOnCharAux sep cs (c :: acc)

/-- Split a string on a separator character, keeping empty parts. -/
def splitOnChar (sep : Char) (s : String) : List String :=
  splitOnCharAux sep s.toList []

/-- Whitespace tokenisation
(`filter.split(QRegularExpression("\s+"), SkipEmptyParts)`). -/
def splitWSAux : List Char → List Char → List String
  | [], acc => if acc.isEmpty then [] else [String.mk acc.reverse]
  | c :: cs, acc =>
    if isWS c then
      if acc.isEmpty then splitWSAux cs []
      else String.mk acc.reverse :: splitWSAux cs []
    else splitWSAux cs (c :: acc)

/-- Whitespace tokenisation of a string. -/
def splitWS (s : String) : List String := splitWSAux s.toList []

/-- `s` contains no whitespace character. -/
def wsFreeS (s : String) : Bool := s.toList.all (fun c => !isWS c)

/-! ## The whitespace-around-operator normalisation

`filterAcceptsRow` first rewrites the filter with eight global regex
replacements `\s*op\s*  ->  op`.  A PCRE leftmost match of `\s*op\s*`
covers the maximal whitespace run before an occurrence of `op`, the
occurrence, and the maximal whitespace run after it; scanning character
by character and testing "whitespace run followed by `op`" at each
position reproduces exactly those matches. -/

/-- Leading whitespace dropped. -/
def dropWS (cs : List Char) : List Char := cs.dropWhile isWS

/-- The regex `\s*op\s*` matches at the current position. -/
def matchHere (op : List Char) (s : List Char) : Bool :=
  !op.isEmpty && startsWithL (dropWS s) op

/-- The rest of the input after a `\s*op\s*` match at the current
position (greedy trailing `\s*`). -/
def afterMatch (op : List Char) (s : List Char) : List Char :=
  dropWS ((dropWS s).drop op.length)

/-- One global-replace pass, fuelled; each step consumes at least one
character, so fuel `s.length` computes the full replacement. -/
def replacePassAux (op : List Char) : Nat → List Char → List Char
  | 0, s => s
  | _ + 1, [] => []
  | fuel + 1, c :: cs =>
    if matchHere op (c :: cs) then
      op ++ replacePassAux op fuel (afterMatch op (c :: cs))
    else
      c :: replacePassAux op fuel cs

/-- One `filter.replace(QRegularExpression("\s*op\s*"), op)` pass. -/
def replacePass (op : String) (s : List Char) : List Char :=
  replacePassAux op.toList s.length s

/-- The eight replacement passes, in source order
`":" "=" "==" "<>" "<" ">" "<=" ">="`. -/
def normalizeOps (s : String) : String :=
  String.mk (replacePass ">=" (replacePass "<=" (replacePass ">"
    (replacePass "<" (replacePass "<>" (replacePass "=="
      (replacePass "=" (replacePass ":" s.toList))))))))

/-! ## Numeric conversions -/

/-- Decimal digits to a number; `none` on the empty list or any
non-digit. -/
def digitsToNat (cs : List Char) : Option Nat :=
  if cs.isEmpty then none
  else if cs.all Char.isDigit then
    some (cs.foldl (fun a c => a * 10 + (c.toNat - 48)) 0)
  else none

/-- `QString::toInt` (base 10, whole string, `int` range). -/
def qtoInt? (s : String) : Option Int :=
  match s.toList with
  | '-' :: rest =>
    (digitsToNat rest).bind fun n =>
      if n ≤ 2147483648 then some (-(n : Int)) else none
  | '+' :: rest =>
    (digitsToNat rest).bind fun n =>
      if n ≤ 2147483647 then some (n : Int) else none
  | cs =>
    (digitsToNat cs).bind fun n =>
      if n ≤ 2147483647 then some (n : Int) else none

/-- `QString::toUInt` (base 10, whole string, `uint` range; a minus sign
fails). -/
def qtoUInt? (s : String) : Option Nat :=
  match s.toList with
  | '+' :: rest =>
    (digitsToNat rest).bind fun n =>
      if n ≤ 4294967295 then some n else none
  | cs =>
    (digitsToNat cs).bind fun n =>
      if n ≤ 4294967295 then some n else none

/-! ## `QVariant` values -/

/-- The closed set of values a predicate or record field can carry:
`QString`, `int`, `uint`, `qint64`, `float`, or an invalid `QVariant`
(`QVariant()` returned by `DataFromField` for an unknown field name).
`float` is modelled by `Rat`; the only float values in this code are
ratings produced by the rating parser, on which exact arithmetic agrees
with the single-precision arithmetic of the source. -/
inductive QVal where
  | vstr (s : String)
  | vint (n : Int)
  | vuint (n : Nat)
  | vlonglong (n : Int)
  | vfloat (q : Rat)
  | invalid
deriving DecidableEq

/-- `QVariant::isValid`. -/
def qvalValid : QVal → Bool
  | .invalid => false
  | _ => true

/-- The `metaType` tag of a value. -/
def metaTag : QVal → Nat
  | .vstr _ => 0
  | .vint _ => 1
  | .vuint _ => 2
  | .vlonglong _ => 3
  | .vfloat _ => 4
  | .invalid => 5

/-- `value.metaType() == data.metaType()`. -/
def metaTypeEq (a b : QVal) : Bool := metaTag a == metaTag b

/-- `QVariant::toString`; only invoked on same-typed values (the
evaluator compares meta types first), so the non-string defaults are
unobservable. -/
def qvalToString : QVal → String
  | .vstr s => s
  | _ => ""

/-- `QVariant::toInt` under the type gate. -/
def qvalToInt : QVal → Int
  | .vint n => n
  | _ => 0

/-- `QVariant::toUInt` under the type gate. -/
def qvalToUInt : QVal → Nat
  | .vuint n => n
  | _ => 0

/-- `QVariant::toLongLong` under the type gate. -/
def qvalToLongLong : QVal → Int
  | .vlonglong n => n
  | _ => 0

/-- `QVariant::toFloat` under the type gate. -/
def qvalToFloat : QVal → Rat
  | .vfloat q => q
  | _ => 0

/-! ## The record (`Song`) and its search columns -/

/-- Modelled from the spec: the Record of section 3 — one track's
metadata with "artist, album-artist (effective …), album, title,
composer, performer, grouping tag, genre, …, track number, …, year,
…, length (nanoseconds), sample rate, bit depth, bitrate, …, rating
(float, -1 = unrated), play count, skip count, … and a validity flag".
Field types follow section 4.2's predicate types (`int` columns,
`unsigned` play statistics, 64-bit signed length, float rating) and the
accessors used by `CollectionFilter::DataFromField`. -/
structure Song where
  valid : Bool
  effective_albumartist : String
  artist : String
  album : String
  title : String
  composer : String
  performer : String
  grouping : String
  genre : String
  comment : String
  track : Int
  year : Int
  samplerate : Int
  bitdepth : Int
  bitrate : Int
  length_nanosec : Int
  rating : Rat
  playcount : Nat
  skipcount : Nat
deriving DecidableEq

/-- Modelled from the spec: the free-text search columns of section 4.2
("title, artist, album, comment, etc."); the full list is the set of
string-valued fields dispatched by `DataFromField`. -/
def kTextSearchColumns : List String :=
  ["albumartist", "artist", "album", "title", "composer", "performer",
   "grouping", "genre", "comment"]

/-- Modelled from the spec: the numeric search columns of section 4.2
"(track, year, bitrate, length, rating, samplerate, bitdepth, disc,
playcount, skipcount)". -/
def kNumericalSearchColumns : List String :=
  ["track", "year", "bitrate", "length", "rating", "samplerate",
   "bitdepth", "disc", "playcount", "skipcount"]

/-- Modelled from the spec: the columns parsed "to the field's native
numeric type (int, …)" — the `int`-valued fields dispatched by
`DataFromField`. -/
def kIntSearchColumns : List String :=
  ["track", "year", "samplerate", "bitdepth", "bitrate"]

/-- Modelled from the spec: the `unsigned` columns — the play
statistics (play count, skip count). -/
def kUIntSearchColumns : List String :=
  ["playcount", "skipcount"]

/-- `CollectionFilter::DataFromField`: dispatch a field name (compared
case-sensitively, as in the source) to the record's accessor, wrapped
in a `QVariant`; unknown names yield the invalid `QVariant`. -/
def DataFromField (field : String) (metadata : Song) : QVal :=
  if field = "albumartist" then .vstr metadata.effective_albumartist
  else if field = "artist" then .vstr metadata.artist
  else if field = "album" then .vstr metadata.album
  else if field = "title" then .vstr metadata.title
  else if field = "composer" then .vstr metadata.composer
  else if field = "performer" then .vstr metadata.performer
  else if field = "grouping" then .vstr metadata.grouping
  else if field = "genre" then .vstr metadata.genre
  else if field = "comment" then .vstr metadata.comment
  else if field = "track" then .vint metadata.track
  else if field = "year" then .vint metadata.year
  else if field = "length" then .vlonglong metadata.length_nanosec
  else if field = "samplerate" then .vint metadata.samplerate
  else if field = "bitdepth" then .vint metadata.bitdepth
  else if field = "bitrate" then .vint metadata.bitrate
  else if field = "rating" then .vfloat metadata.rating
  else if field = "playcount" then .vuint metadata.playcount
  else if field = "skipcount" then .vuint metadata.skipcount
  else .invalid

/-! ## Grouping -/

/-- `CollectionModel::GroupBy`. -/
inductive GroupBy where
  | None | AlbumArtist | Artist | Album | AlbumDisc | YearAlbum
  | YearAlbumDisc | OriginalYearAlbum | OriginalYearAlbumDisc | Disc
  | Year | OriginalYear | Genre | Composer | Performer | Grouping
  | FileType | Format | Samplerate | Bitdepth | Bitrate | GroupByCount
deriving DecidableEq

/-- `CollectionModel::Grouping`: the ordered triple of grouping
dimensions. -/
structure Grouping where
  first : GroupBy
  second : GroupBy
  third : GroupBy
deriving DecidableEq

/-- Modelled from the spec: `Grouping::operator[]` for the slots 0..2
declared in the header; the evaluator only indexes it after checking
`0 <= container_level <= 2`. -/
def Grouping.get (g : Grouping) (i : Int) : GroupBy :=
  if i = 0 then g.first
  else if i = 1 then g.second
  else if i = 2 then g.third
  else .None

/-- `CollectionFilter::FieldsFromGroupBy`. -/
def FieldsFromGroupBy : GroupBy → List String
  | .AlbumArtist => ["albumartist"]
  | .Artist => ["artist"]
  | .Album => ["album"]
  | .AlbumDisc => ["album", "disc"]
  | .YearAlbum => ["year", "album"]
  | .YearAlbumDisc => ["year", "album", "disc"]
  | .OriginalYearAlbum => ["originalyear", "album"]
  | .OriginalYearAlbumDisc => ["originalyear", "album", "disc"]
  | .Disc => ["disc"]
  | .Year => ["year"]
  | .OriginalYear => ["originalyear"]
  | .Genre => ["genre"]
  | .Composer => ["composer"]
  | .Performer => ["performer"]
  | .Grouping => ["grouping"]
  | .FileType => ["filetype"]
  | .Format => ["format"]
  | .Bitdepth => ["bitdepth"]
  | .Samplerate => ["samplerate"]
  | .Bitrate => ["bitrate"]
  | .None => []
  | .GroupByCount => []

/-! ## Items -/

/-- `CollectionItem::Type` (the variants of section 3's node). -/
inductive ItemType where
  | Root | Container | Divider | Song | LoadingIndicator
deriving DecidableEq

/-- The fields of `CollectionItem` read by the filter, with the
children embedded as a subtree; the parent chain is passed separately
to the evaluator. -/
inductive CollectionItem where
  | mk (type : ItemType) (container_level : Int) (display_text : String)
       (metadata : Song) (children : List CollectionItem)

/-- Node type. -/
def CollectionItem.type : CollectionItem → ItemType
  | .mk t _ _ _ _ => t

/-- Container level (0..2 for containers, -1 otherwise). -/
def CollectionItem.container_level : CollectionItem → Int
  | .mk _ l _ _ _ => l

/-- `CollectionItem::DisplayText()`. -/
def CollectionItem.display_text : CollectionItem → String
  | .mk _ _ d _ _ => d

/-- Embedded record. -/
def CollectionItem.metadata : CollectionItem → Song
  | .mk _ _ _ m _ => m

/-- Children. -/
def CollectionItem.children : CollectionItem → List CollectionItem
  | .mk _ _ _ _ cs => cs

/-! ## Predicates (`FilterData`) -/

/-- `CollectionFilter::FilterData`. -/
structure FilterData where
  field : String
  value : QVal
  foperator : String
deriving DecidableEq

/-- `CollectionFilter::FilterDataList = QMap<QString, FilterData>` as an
association list.  `QMap::insert` replaces the entry with the same key;
`QMap` iterates in key order, but the evaluator folds the entries with
a conjunction, so the association-list order is unobservable. -/
abbrev FilterDataList := List (String × FilterData)

/-- `QMap::insert`: replace the entry with key `k`, or append. -/
def fdlInsert (k : String) (fd : FilterData) : FilterDataList → FilterDataList
  | [] => [(k, fd)]
  | (k0, fd0) :: rest =>
    if k0 = k then (k, fd) :: rest else (k0, fd0) :: fdlInsert k fd rest

/-! ## Spec-modelled value parsers -/

/-- Modelled from the spec: `kNsecPerSec` from
`utilities/timeconstants.h` — lengths are stored in nanoseconds and
"210 seconds expressed in nanoseconds" is `210 * 10^9`. -/
def kNsecPerSec : Int := 1000000000

/-- Modelled from the spec: `Utilities::ParseSearchTime` converts "a
human time expression" such as `3:30` to seconds — colon-separated
components folded with base 60 (`3:30 = 210`); a plain number is taken
as seconds. -/
def ParseSearchTime (s : String) : Int :=
  ((splitOnChar ':' s).foldl
    (fun acc part => acc * 60 + ((digitsToNat part.toList).getD 0)) 0 : Nat)

/-- Modelled from the spec: `Utilities::ParseSearchRating`, "a
rating-specific parser" producing a float, with -1 meaning unrated; an
integral value is taken as the rating, anything unparsable maps to the
unrated value. -/
def ParseSearchRating (s : String) : Rat :=
  match qtoInt? s with
  | some n => (n : Rat)
  | none => -1

/-! ## The evaluator -/

/-- Comparison of a stored `data` against a predicate `value` under the
token's operator (`CollectionFilter::FieldNumericalValueMatchesData`,
the template behind the int/uint/longlong/float instances). -/
def FieldNumericalValueMatchesData {α : Type} [LinearOrder α]
    (value : α) (foperator : String) (data : α) : Bool :=
  if foperator = "=" ∨ foperator = "==" then decide (data = value)
  else if foperator = "!=" ∨ foperator = "<>" then decide (data ≠ value)
  else if foperator = "<" then decide (data < value)
  else if foperator = ">" then decide (data > value)
  else if foperator = ">=" then decide (data ≥ value)
  else if foperator = "<=" then decide (data ≤ value)
  else false

/-- `CollectionFilter::FieldValueMatchesData`: dispatch on the runtime
type of the predicate value (string containment for strings, operator
comparison for the numeric kinds, `false` for anything else). -/
def FieldValueMatchesData (value data : QVal) (foperator : String) : Bool :=
  match value with
  | .vstr v => containsCI (qvalToString data) v
  | .vint v => FieldNumericalValueMatchesData v foperator (qvalToInt data)
  | .vuint v => FieldNumericalValueMatchesData v foperator (qvalToUInt data)
  | .vlonglong v => FieldNumericalValueMatchesData v foperator (qvalToLongLong data)
  | .vfloat v => FieldNumericalValueMatchesData v foperator (qvalToFloat data)
  | .invalid => false

/-- The body of the entry loop of
`CollectionFilter::ItemMetadataMatches`: an entry with an empty field
or invalid value is skipped; a non-empty `fields` set rejects a foreign
field; otherwise the meta types must agree and the value comparison
must succeed. -/
def entryPasses (metadata : Song) (fields : List String)
    (e : String × FilterData) : Bool :=
  if e.1 = "" ∨ qvalValid e.2.value = false then true
  else if fields ≠ [] ∧ e.1 ∉ fields then false
  else metaTypeEq e.2.value (DataFromField e.1 metadata)
       && FieldValueMatchesData e.2.value (DataFromField e.1 metadata)
            e.2.foperator

/-- `CollectionFilter::ItemMetadataMatches`. -/
def ItemMetadataMatches (metadata : Song) (fdl : FilterDataList)
    (fields : List String) : Bool :=
  fdl.all (entryPasses metadata fields)

/-- `CollectionFilter::ItemMatchesFilter`. -/
def ItemMatchesFilter (g : Grouping) (item : CollectionItem)
    (fdl : FilterDataList) (filter : String) : Bool :=
  (decide (filter = "") || containsCI item.display_text filter) &&
  (decide (fdl = [])
   || (decide (item.type = ItemType.Song) && item.metadata.valid
       && ItemMetadataMatches item.metadata fdl [])
   || (decide (item.type = ItemType.Container)
       && decide (0 ≤ item.container_level)
       && decide (item.container_level ≤ 2)
       && ItemMetadataMatches item.metadata fdl
            (FieldsFromGroupBy (g.get item.container_level))))

mutual

/-- `CollectionFilter::ChildrenMatches`: some strict descendant
matches. -/
def ChildrenMatches (g : Grouping) (fdl : FilterDataList)
    (filter : String) : CollectionItem → Bool
  | .mk _ _ _ _ children => childrenAnyMatch g fdl filter children

/-- The child loop of `ChildrenMatches`. -/
def childrenAnyMatch (g : Grouping) (fdl : FilterDataList)
    (filter : String) : List CollectionItem → Bool
  | [] => false
  | c :: cs =>
    (ItemMatchesFilter g c fdl filter || ChildrenMatches g fdl filter c)
    || childrenAnyMatch g fdl filter cs

end

/-- The ancestor walk of `filterAcceptsRow`: starting at the item
itself, follow parents while they exist and are not the Root, testing
each against the filter. -/
def ancestorLoop (g : Grouping) (fdl : FilterDataList) (filter : String) :
    List CollectionItem → Bool
  | [] => false
  | p :: rest =>
    if p.type = ItemType.Root then false
    else ItemMatchesFilter g p fdl filter || ancestorLoop g fdl filter rest

mutual

/-- All strict descendants of an item, in preorder. -/
def descendantsList : CollectionItem → List CollectionItem
  | .mk _ _ _ _ children => descendantsOfList children

/-- All members of a forest together with their strict descendants. -/
def descendantsOfList : List CollectionItem → List CollectionItem
  | [] => []
  | c :: cs => c :: (descendantsList c ++ descendantsOfList cs)

end

/-! ## The parser -/

/-- `CollectionFilter::Operators`, in source order. -/
def Operators : List String := [":", "=", "==", "<>", "<", "<=", ">", ">="]

/-- `CollectionFilter::ContainsOperators`. -/
def ContainsOperators (token : String) : Bool :=
  Operators.any (fun fop => containsCI token fop)

/-- `token.contains(':')`. -/
def hasColonTok (token : String) : Bool := token.toList.any (fun c => c == ':')

/-- The first-position alternation of the operator regex
`(=|<[>=]?|>=?|!=)`: alternatives in source order, `?` greedy. -/
def opMatchAt : List Char → Option String
  | '=' :: _ => some "="
  | '<' :: '>' :: _ => some "<>"
  | '<' :: '=' :: _ => some "<="
  | '<' :: _ => some "<"
  | '>' :: '=' :: _ => some ">="
  | '>' :: _ => some ">"
  | '!' :: '=' :: _ => some "!="
  | _ => none

/-- The leftmost match of the operator regex `(=|<[>=]?|>=?|!=)` in a
token (`operator_regex.match(token).captured(0)`). -/
def firstOpMatch : List Char → Option String
  | [] => none
  | c :: cs =>
    match opMatchAt (c :: cs) with
    | some fop => some fop
    | none => firstOpMatch cs

/-- `token.section(':', 0, 0).remove(':').trimmed()`. -/
def colonField (token : String) : String :=
  trimS (removeAllChar ':' (takeBeforeSub ":" token))

/-- `token.section(':', 1, -1).remove(':').trimmed()`. -/
def colonValue (token : String) : String :=
  trimS (removeAllChar ':' (afterFirstSub ":" token))

/-- `token.section(foperator, 0, 0).remove(foperator).trimmed()`. -/
def opField (fop : String) (token : String) : String :=
  trimS (qRemoveAll fop (takeBeforeSub fop token))

/-- `token.section(foperator, 1, -1).remove(foperator).trimmed()`. -/
def opValue (fop : String) (token : String) : String :=
  trimS (qRemoveAll fop (afterFirstSub fop token))

/-- Free-text accumulation:
`if (!filter.isEmpty()) filter.append(' '); filter += token`. -/
def appendFT (filter token : String) : String :=
  if filter = "" then token else filter ++ " " ++ token

/-- The quotation handling applied to a text-column value that starts
with `"` but is not closed within the same token leaves the quote
stripped; a closing quote within the token cuts the value at it.
Returns `(value, quotation_mark_start, quotation_mark_end)`. -/
def quoteStart (value : String) : String × Bool × Bool :=
  match value.toList with
  | '"' :: rest =>
    let v1 := String.mk rest
    if 1 ≤ v1.toList.length ∧ countChar '"' v1 = 1 then
      (trimS (removeAllChar '"' (takeBeforeSub "\"" v1)), true, true)
    else (v1, true, false)
  | _ => (value, false, false)

/-- `next_value.contains('"')`. -/
def hasQuoteTok (token : String) : Bool := token.toList.any (fun c => c == '"')

/-- The phrase-absorption loop (`for (int y = i + 1; ...)`) of the
text-column branch: outside a quote, stop before the first token
containing an operator; inside a quote, a token containing `"` is cut
at the quote and ends the phrase.  Returns the accumulated value and
the unconsumed tokens. -/
def absorb (qstart : Bool) : List String → String → String × List String
  | [], value => (value, [])
  | t :: ts, value =>
    if qstart = false ∧ ContainsOperators t = true then (value, t :: ts)
    else if qstart = true ∧ hasQuoteTok t = true then
      (value ++ " " ++ trimS (removeAllChar '"' (takeBeforeSub "\"" t)), ts)
    else absorb qstart ts (value ++ " " ++ t)

/-- Quote processing followed by the absorption loop: the value of a
text-column token together with the tokens left unconsumed. -/
def phraseValue (value : String) (rest : List String) : String × List String :=
  if (quoteStart value).2.2 = true then ((quoteStart value).1, rest)
  else absorb (quoteStart value).2.1 rest (quoteStart value).1

/-- One iteration of the token loop of `filterAcceptsRow` (lines
84-155): classify `tok`, returning the unconsumed remaining tokens, the
updated predicate map and the updated free text. -/
def parseStep (tok : String) (rest : List String) (fdl : FilterDataList)
    (ft : String) : List String × FilterDataList × String :=
  if hasColonTok tok = true then
    let field := colonField tok
    let value := colonValue tok
    if field = "" ∨ value = "" then (rest, fdl, ft)
    else if memCI kTextSearchColumns field = true ∧ countChar '"' value ≤ 2 then
      let vr := phraseValue value rest
      if field ≠ "" ∧ vr.1 ≠ "" then
        (vr.2, fdlInsert field ⟨field, .vstr vr.1, ""⟩ fdl, ft)
      else (vr.2, fdl, ft)
    else (rest, fdl, appendFT ft tok)
  else
    match firstOpMatch tok.toList with
    | none => (rest, fdl, appendFT ft tok)
    | some fop =>
      let field := opField fop tok
      let value := opValue fop tok
      if value = "" then (rest, fdl, ft)
      else if memCI kNumericalSearchColumns field = true then
        if memCI kIntSearchColumns field = true then
          match qtoInt? value with
          | some n => (rest, fdlInsert field ⟨field, .vint n, fop⟩ fdl, ft)
          | none => (rest, fdl, appendFT ft tok)
        else if memCI kUIntSearchColumns field = true then
          match qtoUInt? value with
          | some n => (rest, fdlInsert field ⟨field, .vuint n, fop⟩ fdl, ft)
          | none => (rest, fdl, appendFT ft tok)
        else if compareCI field "length" = true then
          (rest,
           fdlInsert field
             ⟨field, .vlonglong (ParseSearchTime value * kNsecPerSec), fop⟩ fdl,
           ft)
        else if compareCI field "rating" = true then
          (rest,
           fdlInsert field
             ⟨field, .vfloat (ParseSearchRating value), fop⟩ fdl,
           appendFT ft tok)
        else (rest, fdl, appendFT ft tok)
      else (rest, fdl, appendFT ft tok)

/-- The token loop, fuelled; phrase absorption only consumes tokens, so
fuel `tokens.length` computes the full parse. -/
def parseTokensFuel : Nat → List String → FilterDataList → String →
    FilterDataList × String
  | 0, _, fdl, ft => (fdl, ft)
  | _ + 1, [], fdl, ft => (fdl, ft)
  | fuel + 1, t :: rest, fdl, ft =>
    let s := parseStep t rest fdl ft
    parseTokensFuel fuel s.1 s.2.1 s.2.2

/-- The token loop of `filterAcceptsRow`. -/
def parseTokens (tokens : List String) (fdl : FilterDataList)
    (ft : String) : FilterDataList × String :=
  parseTokensFuel tokens.length tokens fdl ft

/-- Normalisation, tokenisation and the token loop: the filter string
becomes a predicate map and a residual free text. -/
def parseFilter (filter0 : String) : FilterDataList × String :=
  parseTokens (splitWS (normalizeOps filter0)) [] ""

/-- `CollectionFilter::filterAcceptsRow` for a valid source index: the
`LoadingIndicator` short cut, the empty-filter short cut, then parsing
followed by the three checks (the item, the ancestor walk starting at
the item and stopping at the Root, the recursive descendant search).
`ancestors` is the parent chain of `item`, nearest parent first. -/
def filterAcceptsRow (g : Grouping) (item : CollectionItem)
    (ancestors : List CollectionItem) (filter0 : String) : Bool :=
  if item.type = ItemType.LoadingIndicator then true
  else if filter0 = "" then true
  else
    ItemMatchesFilter g item (parseFilter filter0).1 (parseFilter filter0).2
    || ancestorLoop g (parseFilter filter0).1 (parseFilter filter0).2
         (item :: ancestors)
    || ChildrenMatches g (parseFilter filter0).1 (parseFilter filter0).2 item

/-! ## Claim-side notions

These definitions phrase the spec's wording (visibility through
ancestors/descendants, per-predicate satisfaction) independently of the
recursive Bool functions above, so that the claim theorems are genuine
bridges and the refuted claims can be stated. -/

/-- The ancestors of a node "up to (excluding) Root": the parent chain
cut at the first Root-typed node. -/
def ancestorsBelowRoot (ancestors : List CollectionItem) :
    List CollectionItem :=
  ancestors.takeWhile (fun p => decide (p.type ≠ ItemType.Root))

/-- Spec section 4.3: the record satisfies one predicate — the stored
value has the same runtime type as the predicate value and the
operator comparison (or substring containment) succeeds. -/
def RecordSatisfiesPredicate (metadata : Song) (e : String × FilterData) :
    Prop :=
  metaTypeEq e.2.value (DataFromField e.1 metadata) = true ∧
  FieldValueMatchesData e.2.value (DataFromField e.1 metadata)
    e.2.foperator = true

/-- Claim C2's matching rule, read off the spec: free text empty or
contained in the display text, and the predicate set empty, or a Song
node whose record satisfies every predicate, or a Container node at
level 0..2 all of whose predicates name a field of its level's grouping
dimension and are satisfied by its record. -/
def C2Matches (g : Grouping) (item : CollectionItem)
    (fdl : FilterDataList) (ft : String) : Prop :=
  (ft = "" ∨ containsCI item.display_text ft = true) ∧
  (fdl = [] ∨
   (item.type = ItemType.Song ∧
    ∀ e ∈ fdl, RecordSatisfiesPredicate item.metadata e) ∨
   (item.type = ItemType.Container ∧ 0 ≤ item.container_level ∧
    item.container_level ≤ 2 ∧
    ∀ e ∈ fdl,
      e.1 ∈ FieldsFromGroupBy (g.get item.container_level) ∧
      RecordSatisfiesPredicate item.metadata e))

/-- Claim C1's visibility rule at a node: the node itself matches, or
an ancestor strictly below the Root matches, or a descendant at any
depth matches. -/
def C1Visible (g : Grouping) (item : CollectionItem)
    (ancestors : List CollectionItem) (fdl : FilterDataList)
    (ft : String) : Prop :=
  ItemMatchesFilter g item fdl ft = true ∨
  (∃ p ∈ ancestorsBelowRoot ancestors, ItemMatchesFilter g p fdl ft = true) ∨
  (∃ d ∈ descendantsList item, ItemMatchesFilter g d fdl ft = true)

/-- Space-joined accumulation of absorbed tokens onto a value
(claim C10). -/
def joinSp (v : String) (l : List String) : String :=
  l.foldl (fun a t => a ++ " " ++ t) v

mutual

/-- Size of an item (for induction over the rose tree). -/
def itemSize : CollectionItem → Nat
  | .mk _ _ _ _ children => 1 + forestSize children

/-- Size of a forest. -/
def forestSize : List CollectionItem → Nat
  | [] => 0
  | c :: cs => itemSize c + forestSize cs

end

/-! ## Concrete fixtures -/

/-- A record with every field blank/zero (valid). -/
def defaultSong : Song :=
  ⟨true, "", "", "", "", "", "", "", "", "", 0, 0, 0, 0, 0, 0, 0, 0, 0⟩

/-- A valid record with a given title. -/
def songTitled (t : String) : Song :=
  ⟨true, "", "", "", t, "", "", "", "", "", 0, 0, 0, 0, 0, 0, 0, 0, 0⟩

/-- A valid record with a given year. -/
def songOfYear (y : Int) : Song :=
  ⟨true, "", "", "", "T", "", "", "", "", "", 0, y, 0, 0, 0, 0, 0, 0, 0⟩

/-- A valid record with a given length in nanoseconds. -/
def songOfLength (n : Int) : Song :=
  ⟨true, "", "", "", "T", "", "", "", "", "", 0, 0, 0, 0, 0, n, 0, 0, 0⟩

/-- The grouping artist → album (third slot unused). -/
def G0 : Grouping := ⟨.AlbumArtist, .Album, .None⟩

/-- A Root node. -/
def rootItem : CollectionItem := .mk .Root (-1) "" defaultSong []

/-- A level-0 artist container with blank metadata. -/
def artistItem : CollectionItem := .mk .Container 0 "Some Artist" defaultSong []

/-- A leaf Song node with record `s` and display text `d`. -/
def songItemOf (s : Song) (d : String) : CollectionItem :=
  .mk .Song (-1) d s []

/-- A loading-indicator row (counterexample to claim C1 as stated). -/
def loadingItem : CollectionItem :=
  .mk .LoadingIndicator (-1) "Loading" defaultSong []

/-- Well-formedness of a parsed predicate entry: a non-empty field name
and a valid value; the parser only ever inserts such entries. -/
def wfEntry (e : String × FilterData) : Prop :=
  e.1 ≠ "" ∧ qvalValid e.2.value = true

/-! # Theorems -/

theorem absorb_rest_le (q : Bool) :
    ∀ (ts : List String) (v : String), (absorb q ts v).2.length ≤ ts.length := by
  intro ts
  induction ts with
  | nil => intro v; simp [absorb]
  | cons t ts ih =>
    intro v
    unfold absorb
    split
    · exact Nat.le_refl _
    · split
      · simp
      · exact Nat.le_trans (ih _) (Nat.le_succ _)

theorem phraseValue_rest_le (value : String) (rest : List String) :
    (phraseValue value rest).2.length ≤ rest.length := by
  unfold phraseValue
  split
  · exact Nat.le_refl _
  · exact absorb_rest_le _ _ _

theorem parseStep_rest_le (t : String) (rest : List String)
    (fdl : FilterDataList) (ft : String) :
    (parseStep t rest fdl ft).1.length ≤ rest.length := by
  simp only [parseStep]
  repeat' split
  all_goals first
    | exact Nat.le_refl _
    | exact phraseValue_rest_le _ _

theorem parseTokensFuel_ge :
    ∀ (fuel : Nat) (toks : List String) (fdl : FilterDataList) (ft : String),
      toks.length ≤ fuel →
      parseTokensFuel fuel toks fdl ft =
        parseTokensFuel toks.length toks fdl ft := by
  intro fuel
  induction fuel using Nat.strong_induction_on with
  | _ fuel ih =>
    intro toks fdl ft h
    match fuel, toks with
    | 0, [] => rfl
    | 0, t :: rest => exact absurd h (by simp)
    | fuel + 1, [] => rfl
    | fuel + 1, t :: rest =>
      have hs := parseStep_rest_le t rest fdl ft
      have hr : rest.length ≤ fuel := Nat.le_of_succ_le_succ h
      show parseTokensFuel fuel _ _ _ = parseTokensFuel rest.length _ _ _
      rw [ih fuel (Nat.lt_succ_self _) _ _ _ (Nat.le_trans hs hr),
          ih rest.length (Nat.lt_succ_of_le hr) _ _ _ hs]

theorem parseTokens_cons (t : String) (rest : List String)
    (fdl : FilterDataList) (ft : String) :
    parseTokens (t :: rest) fdl ft =
      parseTokens (parseStep t rest fdl ft).1
        (parseStep t rest fdl ft).2.1 (parseStep t rest fdl ft).2.2 := by
  show parseTokensFuel rest.length _ _ _ = _
  exact parseTokensFuel_ge rest.length _ _ _ (parseStep_rest_le t rest fdl ft)

theorem mem_fdlInsert (k : String) (fd : FilterData) :
    ∀ (l : FilterDataList) (e : String × FilterData),
      e ∈ fdlInsert k fd l → e = (k, fd) ∨ e ∈ l := by
  intro l
  induction l with
  | nil => intro e he; simpa [fdlInsert] using he
  | cons p rest ih =>
    intro e he
    unfold fdlInsert at he
    split at he
    · rcases List.mem_cons.mp he with h | h
      · exact Or.inl h
      · exact Or.inr (List.mem_cons_of_mem _ h)
    · rcases List.mem_cons.mp he with h | h
      · exact Or.inr (h ▸ List.mem_cons_self _ _)
      · rcases ih e h with h' | h'
        · exact Or.inl h'
        · exact Or.inr (List.mem_cons_of_mem _ h')

theorem memCI_empty_num : memCI kNumericalSearchColumns "" = false := by decide

theorem memCI_num_ne_empty (f : String)
    (h : memCI kNumericalSearchColumns f = true) : f ≠ "" := by
  intro h0
  rw [h0, memCI_empty_num] at h
  exact Bool.false_ne_true h

theorem parseStep_fdl_wf (t : String) (rest : List String)
    (fdl : FilterDataList) (ft : String)
    (h : ∀ e ∈ fdl, wfEntry e) :
    ∀ e ∈ (parseStep t rest fdl ft).2.1, wfEntry e := by
  simp only [parseStep]
  repeat' split
  all_goals intro e he
  all_goals
    first
    | exact h e he
    | (rcases mem_fdlInsert _ _ _ _ he with h' | h'
       · subst h'
         refine ⟨?_, rfl⟩
         first
         | exact memCI_num_ne_empty _ (by assumption)
         | simp_all
       · exact h e h')

theorem parseTokensFuel_fdl_wf :
    ∀ (fuel : Nat) (toks : List String) (fdl : FilterDataList) (ft : String),
      (∀ e ∈ fdl, wfEntry e) →
      ∀ e ∈ (parseTokensFuel fuel toks fdl ft).1, wfEntry e := by
  intro fuel
  induction fuel with
  | zero => intro toks fdl ft h; exact h
  | succ n ih =>
    intro toks fdl ft h
    cases toks with
    | nil => exact h
    | cons t rest =>
      exact ih _ _ _ (parseStep_fdl_wf t rest fdl ft h)

/-- Every entry of a parsed predicate map has a non-empty field name
and a valid value (spec 4.2: predicates are field-scoped and typed). -/
theorem parseFilter_wf (filter0 : String) :
    ∀ e ∈ (parseFilter filter0).1, wfEntry e := by
  unfold parseFilter parseTokens
  exact parseTokensFuel_fdl_wf _ _ _ _ (by intro e he; cases he)

theorem ancestorLoop_iff (g : Grouping) (fdl : FilterDataList) (ft : String) :
    ∀ l : List CollectionItem,
      ancestorLoop g fdl ft l = true ↔
        ∃ p ∈ ancestorsBelowRoot l, ItemMatchesFilter g p fdl ft = true := by
  intro l
  induction l with
  | nil => simp [ancestorLoop, ancestorsBelowRoot]
  | cons p rest ih =>
    by_cases hp : p.type = ItemType.Root
    · have e1 : ancestorLoop g fdl ft (p :: rest) = false := by
        simp only [ancestorLoop]
        rw [if_pos hp]
      have e2 : ancestorsBelowRoot (p :: rest) = [] := by
        unfold ancestorsBelowRoot
        rw [List.takeWhile_cons, if_neg (by simp [hp])]
      rw [e1, e2]
      simp
    · have e1 : ancestorLoop g fdl ft (p :: rest) =
          (ItemMatchesFilter g p fdl ft || ancestorLoop g fdl ft rest) := by
        simp only [ancestorLoop]
        rw [if_neg hp]
      have e2 : ancestorsBelowRoot (p :: rest) = p :: ancestorsBelowRoot rest := by
        unfold ancestorsBelowRoot
        rw [List.takeWhile_cons, if_pos (by simp [hp])]
      rw [e1, e2, Bool.or_eq_true, ih]
      simp only [List.mem_cons]
      constructor
      · rintro (h | ⟨x, hx, hm⟩)
        · exact ⟨p, Or.inl rfl, h⟩
        · exact ⟨x, Or.inr hx, hm⟩
      · rintro ⟨x, hx | hx, hm⟩
        · exact Or.inl (hx ▸ hm)
        · exact Or.inr ⟨x, hx, hm⟩

theorem childrenAnyMatch_iff (g : Grouping) (fdl : FilterDataList)
    (ft : String) :
    ∀ (n : Nat) (cs : List CollectionItem), forestSize cs ≤ n →
      (childrenAnyMatch g fdl ft cs = true ↔
        ∃ d ∈ descendantsOfList cs, ItemMatchesFilter g d fdl ft = true) := by
  intro n
  induction n using Nat.strong_induction_on with
  | _ n ih =>
    intro cs h
    cases cs with
    | nil => simp [childrenAnyMatch, descendantsOfList]
    | cons c cs' =>
      cases c with
      | mk t lvl d md children =>
        have hsz : forestSize (CollectionItem.mk t lvl d md children :: cs')
            = 1 + forestSize children + forestSize cs' := rfl
        have h1 : forestSize children < n := by omega
        have h2 : forestSize cs' < n := by omega
        have e1 : childrenAnyMatch g fdl ft
            (CollectionItem.mk t lvl d md children :: cs')
            = ((ItemMatchesFilter g (CollectionItem.mk t lvl d md children) fdl ft
                || childrenAnyMatch g fdl ft children)
               || childrenAnyMatch g fdl ft cs') := rfl
        have e2 : descendantsOfList (CollectionItem.mk t lvl d md children :: cs')
            = CollectionItem.mk t lvl d md children
              :: (descendantsOfList children ++ descendantsOfList cs') := rfl
        rw [e1, e2, Bool.or_eq_true, Bool.or_eq_true,
            ih (forestSize children) h1 children le_rfl,
            ih (forestSize cs') h2 cs' le_rfl]
        simp only [List.mem_cons, List.mem_append]
        constructor
        · rintro ((h' | ⟨x, hx, hm⟩) | ⟨x, hx, hm⟩)
          · exact ⟨_, Or.inl rfl, h'⟩
          · exact ⟨x, Or.inr (Or.inl hx), hm⟩
          · exact ⟨x, Or.inr (Or.inr hx), hm⟩
        · rintro ⟨x, rfl | hx | hx, hm⟩
          · exact Or.inl (Or.inl hm)
          · exact Or.inl (Or.inr ⟨x, hx, hm⟩)
          · exact Or.inr ⟨x, hx, hm⟩

theorem ChildrenMatches_iff (g : Grouping) (fdl : FilterDataList)
    (ft : String) (item : CollectionItem) :
    ChildrenMatches g fdl ft item = true ↔
      ∃ d ∈ descendantsList item, ItemMatchesFilter g d fdl ft = true := by
  cases item with
  | mk t lvl d md children =>
    have e1 : ChildrenMatches g fdl ft (CollectionItem.mk t lvl d md children)
        = childrenAnyMatch g fdl ft children := rfl
    have e2 : descendantsList (CollectionItem.mk t lvl d md children)
        = descendantsOfList children := rfl
    rw [e1, e2]
    exact childrenAnyMatch_iff g fdl ft (forestSize children) children le_rfl

theorem memCI_elim (l : List String) (f : String) (h : memCI l f = true) :
    ∃ x ∈ l, lowerChars f.toList = lowerChars x.toList := by
  unfold memCI eqCI at h
  rcases List.any_eq_true.mp h with ⟨x, hx, he⟩
  exact ⟨x, hx, eq_of_beq he⟩

theorem memCI_sub (l₁ l₂ : List String) (f : String)
    (hsub : ∀ x ∈ l₁, x ∈ l₂) (h : memCI l₁ f = true) : memCI l₂ f = true := by
  unfold memCI at h ⊢
  rcases List.any_eq_true.mp h with ⟨x, hx, he⟩
  exact List.any_eq_true.mpr ⟨x, hsub x hx, he⟩

theorem memCI_int_num (f : String) (h : memCI kIntSearchColumns f = true) :
    memCI kNumericalSearchColumns f = true :=
  memCI_sub _ _ f (by decide) h

theorem memCI_uint_num (f : String) (h : memCI kUIntSearchColumns f = true) :
    memCI kNumericalSearchColumns f = true :=
  memCI_sub _ _ f (by decide) h

theorem memCI_uint_not_int (f : String)
    (h : memCI kUIntSearchColumns f = true) :
    memCI kIntSearchColumns f = false := by
  rcases memCI_elim _ _ h with ⟨x, hx, he⟩
  have hx' : x = "playcount" ∨ x = "skipcount" := by
    simpa [kUIntSearchColumns] using hx
  unfold memCI eqCI kIntSearchColumns
  rcases hx' with rfl | rfl
  · rw [he]; decide
  · rw [he]; decide

theorem compareCI_rating_lower (f : String)
    (h : compareCI f "rating" = true) :
    lowerChars f.toList = "rating".toList := by
  have h' := eq_of_beq h
  rw [h']
  decide

theorem ratingField_num (f : String) (h : compareCI f "rating" = true) :
    memCI kNumericalSearchColumns f = true := by
  have hl := compareCI_rating_lower f h
  unfold memCI eqCI kNumericalSearchColumns
  rw [hl]
  decide

theorem ratingField_not_int (f : String) (h : compareCI f "rating" = true) :
    memCI kIntSearchColumns f = false := by
  have hl := compareCI_rating_lower f h
  unfold memCI eqCI kIntSearchColumns
  rw [hl]
  decide

theorem ratingField_not_uint (f : String) (h : compareCI f "rating" = true) :
    memCI kUIntSearchColumns f = false := by
  have hl := compareCI_rating_lower f h
  unfold memCI eqCI kUIntSearchColumns
  rw [hl]
  decide

theorem ratingField_not_length (f : String) (h : compareCI f "rating" = true) :
    compareCI f "length" = false := by
  have hl := compareCI_rating_lower f h
  unfold compareCI
  rw [hl]
  decide

theorem title_notin_fields (gb : GroupBy) :
    "title" ∉ FieldsFromGroupBy gb := by
  cases gb <;> decide

theorem IMM_false_of_entry (md : Song) (fields : List String)
    (fdl : FilterDataList) (e : String × FilterData) (he : e ∈ fdl)
    (hf : entryPasses md fields e = false) :
    ItemMetadataMatches md fdl fields = false := by
  cases hA : ItemMetadataMatches md fdl fields
  · rfl
  · exfalso
    have := List.all_eq_true.mp hA e he
    rw [hf] at this
    exact Bool.false_ne_true this

theorem entryPasses_nil_fields (md : Song) (e : String × FilterData)
    (h1 : e.1 ≠ "") (h2 : qvalValid e.2.value = true) :
    (entryPasses md [] e = true ↔ RecordSatisfiesPredicate md e) := by
  unfold entryPasses RecordSatisfiesPredicate
  rw [if_neg (by simp [h1, h2]), if_neg (by simp)]
  exact iff_of_eq (Bool.and_eq_true _ _)

theorem entryPasses_fields (md : Song) (fields : List String)
    (e : String × FilterData) (hne : fields ≠ []) (h1 : e.1 ≠ "")
    (h2 : qvalValid e.2.value = true) :
    (entryPasses md fields e = true ↔
      e.1 ∈ fields ∧ RecordSatisfiesPredicate md e) := by
  unfold entryPasses RecordSatisfiesPredicate
  rw [if_neg (by simp [h1, h2])]
  by_cases hm : e.1 ∈ fields
  · rw [if_neg (by simp [hm])]
    rw [Bool.and_eq_true]
    exact ⟨fun h => ⟨hm, h⟩, fun h => h.2⟩

  · rw [if_pos ⟨hne, hm⟩]
    constructor
    · intro h; exact absurd h (by simp)
    · intro h; exact absurd h.1 hm

/-- Claim C3: for every predicate in the parsed predicate set (its
field is non-empty and its value valid) and every record, if the
runtime type of the predicate's parsed value differs from the runtime
type of the value the record stores for that field, the predicate never
matches — `ItemMetadataMatches` rejects the record outright, regardless
of the operator and of the numeric value, for any field-restriction
list. -/
theorem c3_strict_type_gate (metadata : Song) (fields : List String)
    (fdl : FilterDataList) (k : String) (fd : FilterData)
    (hmem : (k, fd) ∈ fdl) (hk : k ≠ "")
    (hval : qvalValid fd.value = true)
    (htag : metaTag fd.value ≠ metaTag (DataFromField k metadata)) :
    ItemMetadataMatches metadata fdl fields = false := by
  apply IMM_false_of_entry metadata fields fdl (k, fd) hmem
  unfold entryPasses
  rw [if_neg (by simp [hk, hval])]
  split
  · rfl
  · have hm : metaTypeEq fd.value (DataFromField k metadata) = false := by
      unfold metaTypeEq
      exact beq_eq_false_iff_ne.mpr htag
    rw [hm, Bool.false_and]

theorem c3_strict_type_gate_witness :
    ItemMetadataMatches defaultSong
      [("year", ⟨"year", QVal.vstr "1976", ":"⟩)] [] = false :=
  c3_strict_type_gate defaultSong [] _ "year" ⟨"year", QVal.vstr "1976", ":"⟩
    (by decide) (by decide) (by decide) (by decide)

/-- Claim C2: for every node, parsed predicate set and residual free
text, `ItemMatchesFilter` accepts exactly when (the free text is empty
or contained case-insensitively in the display text) and (the predicate
set is empty, or the node is a Song node whose record satisfies every
predicate, or the node is a Container node at level 0..2 whose record
satisfies every predicate and every predicate's field belongs to the
field set of its level's grouping dimension; any other node type never
satisfies a non-empty predicate set).  The hypotheses state the
invariants of nodes produced by the tree builder and of parsed
predicate sets: parsed entries have non-empty fields and valid values
(`parseFilter_wf`), Song nodes carry valid records (spec section 7:
invalid records are never inserted), and Container levels carry a
grouping dimension with a non-empty field set (spec section 3: `None`
terminates the hierarchy, so no container exists for it). -/
theorem c2_matching_rule (g : Grouping) (item : CollectionItem)
    (fdl : FilterDataList) (ft : String)
    (hp : ∀ e ∈ fdl, wfEntry e)
    (hs : item.type = ItemType.Song → item.metadata.valid = true)
    (hc : item.type = ItemType.Container →
      FieldsFromGroupBy (g.get item.container_level) ≠ []) :
    (ItemMatchesFilter g item fdl ft = true ↔ C2Matches g item fdl ft) := by
  unfold ItemMatchesFilter C2Matches ItemMetadataMatches
  simp only [Bool.and_eq_true, Bool.or_eq_true, decide_eq_true_eq,
    List.all_eq_true]
  apply and_congr Iff.rfl
  rw [or_assoc]
  apply or_congr Iff.rfl
  apply or_congr
  · constructor
    · rintro ⟨⟨hty, _hv⟩, hall⟩
      exact ⟨hty, fun e he =>
        (entryPasses_nil_fields _ _ (hp e he).1 (hp e he).2).mp (hall e he)⟩
    · rintro ⟨hty, hall⟩
      exact ⟨⟨hty, hs hty⟩, fun e he =>
        (entryPasses_nil_fields _ _ (hp e he).1 (hp e he).2).mpr (hall e he)⟩
  · constructor
    · rintro ⟨⟨⟨hty, h0⟩, h2'⟩, hall⟩
      exact ⟨hty, h0, h2', fun e he =>
        (entryPasses_fields _ _ _ (hc hty) (hp e he).1 (hp e he).2).mp
          (hall e he)⟩
    · rintro ⟨hty, h0, h2', hall⟩
      exact ⟨⟨⟨hty, h0⟩, h2'⟩, fun e he =>
        (entryPasses_fields _ _ _ (hc hty) (hp e he).1 (hp e he).2).mpr
          (hall e he)⟩

theorem c2_matching_rule_witness :
    (ItemMatchesFilter G0 (songItemOf (songOfYear 1976) "d")
        [("year", ⟨"year", QVal.vint 1976, "="⟩)] "" = true ↔
      C2Matches G0 (songItemOf (songOfYear 1976) "d")
        [("year", ⟨"year", QVal.vint 1976, "="⟩)] "") :=
  c2_matching_rule G0 (songItemOf (songOfYear 1976) "d")
    [("year", ⟨"year", QVal.vint 1976, "="⟩)] ""
    (by
      intro e he
      simp only [List.mem_singleton] at he
      subst he
      exact ⟨by decide, rfl⟩)
    (by intro h; rfl) (by intro h; cases h)

theorem ancestorLoop_cons_root (g : Grouping) (fdl : FilterDataList)
    (ft : String) (p : CollectionItem) (rest : List CollectionItem)
    (hp : p.type = ItemType.Root) :
    ancestorLoop g fdl ft (p :: rest) = false := by
  simp only [ancestorLoop]
  rw [if_pos hp]

theorem ancestorLoop_cons (g : Grouping) (fdl : FilterDataList) (ft : String)
    (p : CollectionItem) (rest : List CollectionItem)
    (hp : p.type ≠ ItemType.Root) :
    ancestorLoop g fdl ft (p :: rest) =
      (ItemMatchesFilter g p fdl ft || ancestorLoop g fdl ft rest) := by
  simp only [ancestorLoop]
  rw [if_neg hp]

theorem songItemOf_type (s : Song) (d : String) :
    (songItemOf s d).type = ItemType.Song := rfl

/-- Claim C4 counterexample: under the filter `year>=1970 year<1980` a
valid song whose year field is 0 IS accepted, although the claim states
that it must not be.  The predicate map is keyed by field name and
`QMap::insert` replaces the existing entry, so the later `year<1980`
overwrites `year>=1970`, and `0 < 1980` holds. -/
theorem c4_counterexample :
    (songOfYear 0).year = 0 ∧
    filterAcceptsRow G0 (songItemOf (songOfYear 0) "d") [artistItem, rootItem]
      "year>=1970 year<1980" = true := by
  constructor
  · rfl
  · decide

/-- Claim C4 (amended): parsing `year>=1970 year<1980` retains only the
later predicate per field — the map holds exactly `year < 1980` — and a
valid Song leaf under an artist container is accepted if and only if
its year is smaller than 1980.  In particular a song whose year field
is 0 is accepted. -/
theorem c4_last_predicate_wins :
    parseFilter "year>=1970 year<1980"
      = ([("year", ⟨"year", QVal.vint 1980, "<"⟩)], "") ∧
    ∀ (s : Song) (d : String), s.valid = true →
      filterAcceptsRow G0 (songItemOf s d) [artistItem, rootItem]
        "year>=1970 year<1980" = decide (s.year < 1980) := by
  constructor
  · decide
  · intro s d hv
    have hp : parseFilter "year>=1970 year<1980"
        = ([("year", ⟨"year", QVal.vint 1980, "<"⟩)], "") := by decide
    unfold filterAcceptsRow
    rw [if_neg (by rw [songItemOf_type]; decide), if_neg (by decide), hp]
    have hcm : ChildrenMatches G0 [("year", ⟨"year", QVal.vint 1980, "<"⟩)] ""
        (songItemOf s d) = false := rfl
    have hsong : ItemMatchesFilter G0 (songItemOf s d)
        [("year", ⟨"year", QVal.vint 1980, "<"⟩)] ""
        = decide (s.year < 1980) := by
      simp [ItemMatchesFilter, songItemOf, CollectionItem.type,
        CollectionItem.display_text, CollectionItem.metadata,
        CollectionItem.container_level, ItemMetadataMatches, entryPasses,
        DataFromField, metaTypeEq, metaTag, FieldValueMatchesData,
        FieldNumericalValueMatchesData, qvalToInt, qvalValid, hv]
    have hart : ItemMatchesFilter G0 artistItem
        [("year", ⟨"year", QVal.vint 1980, "<"⟩)] "" = false := by decide
    rw [ancestorLoop_cons _ _ _ _ _ (by rw [songItemOf_type]; decide),
        ancestorLoop_cons _ _ _ _ _ (by decide),
        ancestorLoop_cons_root _ _ _ _ _ (by decide),
        hcm, hsong, hart]
    cases hx : decide (s.year < 1980) <;> rfl

theorem c4_last_predicate_wins_witness :
    filterAcceptsRow G0 (songItemOf (songOfYear 1975) "d")
      [artistItem, rootItem] "year>=1970 year<1980" = true := by
  rw [c4_last_predicate_wins.2 (songOfYear 1975) "d" rfl]
  decide

/-- Claim C5 counterexample: a valid song whose length is exactly 210
seconds in nanoseconds is NOT accepted under the filter `length:3:30`
(the claim states it is the exact length match that must be accepted).
A token containing `:` never reaches the numeric branch of the parser
(the colon branch is tried first and `length` is not a text column), so
the whole token becomes free text, which the display texts of this tree
do not contain. -/
theorem c5_counterexample :
    (songOfLength (210 * kNsecPerSec)).length_nanosec = 210 * kNsecPerSec ∧
    filterAcceptsRow G0 (songItemOf (songOfLength (210 * kNsecPerSec))
        "Nice Track") [artistItem, rootItem] "length:3:30" = false := by
  constructor
  · rfl
  · decide

/-- Claim C5 (amended): the filters `length:3:30` and `length>3:30` are
parsed entirely as free text (their tokens contain `:`, which routes
them away from the numeric branch), so a Song leaf is accepted exactly
when its display text contains the literal token case-insensitively —
its length is irrelevant.  A colon-free numeric token such as
`length>210` does form a length predicate: a valid Song leaf is
accepted exactly when its length is strictly greater than 210 seconds
in nanoseconds. -/
theorem c5_colon_routes_to_free_text :
    (parseFilter "length:3:30" = ([], "length:3:30") ∧
     parseFilter "length>3:30" = ([], "length>3:30") ∧
     parseFilter "length>210"
       = ([("length", ⟨"length", QVal.vlonglong (210 * kNsecPerSec), ">"⟩)],
          "")) ∧
    (∀ (s : Song) (d : String),
      filterAcceptsRow G0 (songItemOf s d) [artistItem, rootItem]
        "length:3:30" = containsCI d "length:3:30") ∧
    (∀ (s : Song) (d : String),
      filterAcceptsRow G0 (songItemOf s d) [artistItem, rootItem]
        "length>3:30" = containsCI d "length>3:30") ∧
    (∀ (s : Song) (d : String), s.valid = true →
      filterAcceptsRow G0 (songItemOf s d) [artistItem, rootItem]
        "length>210" = decide (210 * kNsecPerSec < s.length_nanosec)) := by
  refine ⟨⟨by decide, by decide, by decide⟩, ?_, ?_, ?_⟩
  · intro s d
    have hp : parseFilter "length:3:30" = ([], "length:3:30") := by decide
    unfold filterAcceptsRow
    rw [if_neg (by rw [songItemOf_type]; decide), if_neg (by decide), hp]
    have hcm : ChildrenMatches G0 [] "length:3:30" (songItemOf s d)
        = false := rfl
    have hsong : ItemMatchesFilter G0 (songItemOf s d) [] "length:3:30"
        = containsCI d "length:3:30" := by
      simp [ItemMatchesFilter, songItemOf, CollectionItem.display_text]
    have hart : ItemMatchesFilter G0 artistItem [] "length:3:30" = false := by
      decide
    rw [ancestorLoop_cons _ _ _ _ _ (by rw [songItemOf_type]; decide),
        ancestorLoop_cons _ _ _ _ _ (by decide),
        ancestorLoop_cons_root _ _ _ _ _ (by decide),
        hcm, hsong, hart]
    cases hx : containsCI d "length:3:30" <;> rfl
  · intro s d
    have hp : parseFilter "length>3:30" = ([], "length>3:30") := by decide
    unfold filterAcceptsRow
    rw [if_neg (by rw [songItemOf_type]; decide), if_neg (by decide), hp]
    have hcm : ChildrenMatches G0 [] "length>3:30" (songItemOf s d)
        = false := rfl
    have hsong : ItemMatchesFilter G0 (songItemOf s d) [] "length>3:30"
        = containsCI d "length>3:30" := by
      simp [ItemMatchesFilter, songItemOf, CollectionItem.display_text]
    have hart : ItemMatchesFilter G0 artistItem [] "length>3:30" = false := by
      decide
    rw [ancestorLoop_cons _ _ _ _ _ (by rw [songItemOf_type]; decide),
        ancestorLoop_cons _ _ _ _ _ (by decide),
        ancestorLoop_cons_root _ _ _ _ _ (by decide),
        hcm, hsong, hart]
    cases hx : containsCI d "length>3:30" <;> rfl
  · intro s d hv
    have hp : parseFilter "length>210"
        = ([("length", ⟨"length", QVal.vlonglong (210 * kNsecPerSec), ">"⟩)],
           "") := by decide
    unfold filterAcceptsRow
    rw [if_neg (by rw [songItemOf_type]; decide), if_neg (by decide), hp]
    have hcm : ChildrenMatches G0
        [("length", ⟨"length", QVal.vlonglong (210 * kNsecPerSec), ">"⟩)] ""
        (songItemOf s d) = false := rfl
    have hsong : ItemMatchesFilter G0 (songItemOf s d)
        [("length", ⟨"length", QVal.vlonglong (210 * kNsecPerSec), ">"⟩)] ""
        = decide (210 * kNsecPerSec < s.length_nanosec) := by
      simp [ItemMatchesFilter, songItemOf, CollectionItem.type,
        CollectionItem.display_text, CollectionItem.metadata,
        CollectionItem.container_level, ItemMetadataMatches, entryPasses,
        DataFromField, metaTypeEq, metaTag, FieldValueMatchesData,
        FieldNumericalValueMatchesData, qvalToLongLong, qvalValid, hv,
        kNsecPerSec]
    have hart : ItemMatchesFilter G0 artistItem
        [("length", ⟨"length", QVal.vlonglong (210 * kNsecPerSec), ">"⟩)] ""
        = false := by decide
    rw [ancestorLoop_cons _ _ _ _ _ (by rw [songItemOf_type]; decide),
        ancestorLoop_cons _ _ _ _ _ (by decide),
        ancestorLoop_cons_root _ _ _ _ _ (by decide),
        hcm, hsong, hart]
    cases hx : decide (210 * kNsecPerSec < s.length_nanosec) <;> rfl

theorem c5_colon_routes_to_free_text_witness :
    filterAcceptsRow G0 (songItemOf (songOfLength 211000000000) "d")
      [artistItem, rootItem] "length>210" = true ∧
    filterAcceptsRow G0 (songItemOf (songOfLength (210 * kNsecPerSec))
        "AAA length:3:30 BBB") [artistItem, rootItem] "length:3:30" = true := by
  constructor
  · rw [c5_colon_routes_to_free_text.2.2.2 (songOfLength 211000000000) "d" rfl]
    decide
  · rw [c5_colon_routes_to_free_text.2.1 (songOfLength (210 * kNsecPerSec))
        "AAA length:3:30 BBB"]
    decide

theorem IMF_title_nonsong (g : Grouping) (a : CollectionItem)
    (hns : a.type ≠ ItemType.Song)
    (hcf : a.type = ItemType.Container →
      FieldsFromGroupBy (g.get a.container_level) ≠ []) :
    ItemMatchesFilter g a
      [("title", ⟨"title", QVal.vstr "some song", ""⟩)] "" = false := by
  unfold ItemMatchesFilter
  have hsb : decide (a.type = ItemType.Song) = false := by
    simp [hns]
  by_cases hct : a.type = ItemType.Container
  · have hIMM : ItemMetadataMatches a.metadata
        [("title", ⟨"title", QVal.vstr "some song", ""⟩)]
        (FieldsFromGroupBy (g.get a.container_level)) = false := by
      apply IMM_false_of_entry _ _ _ _ (List.mem_singleton_self _)
      unfold entryPasses
      rw [if_neg (by decide), if_pos ⟨hcf hct, title_notin_fields _⟩]
    rw [hIMM]
    simp [hsb]
  · have hcb : decide (a.type = ItemType.Container) = false := by
      simp [hct]
    simp [hsb, hcb]

/-- Claim C6: under the filter `title:"some song"` (which parses to the
single text predicate `title` contains `"some song"` and no free text),
a valid Song leaf is accepted if and only if its title contains the
contiguous substring "some song" case-insensitively — for any grouping
and any ancestor chain that contains no Song node and whose containers
sit on a grouping dimension with a non-empty field set (no grouping
dimension supplies the `title` field, so no ancestor can match).  A
title containing "some" and "song" only non-adjacently is therefore not
accepted (witness). -/
theorem c6_quoted_phrase (g : Grouping) (s : Song) (lvl : Int) (d : String)
    (anc : List CollectionItem) (hv : s.valid = true)
    (ha : ∀ a ∈ anc, a.type ≠ ItemType.Song ∧
      (a.type = ItemType.Container →
        FieldsFromGroupBy (g.get a.container_level) ≠ [])) :
    filterAcceptsRow g (CollectionItem.mk ItemType.Song lvl d s []) anc
      "title:\"some song\"" = containsCI s.title "some song" := by
  have hp : parseFilter "title:\"some song\""
      = ([("title", ⟨"title", QVal.vstr "some song", ""⟩)], "") := by decide
  unfold filterAcceptsRow
  rw [if_neg (by intro h; cases h), if_neg (by decide), hp]
  have hcm : ChildrenMatches g
      [("title", ⟨"title", QVal.vstr "some song", ""⟩)] ""
      (CollectionItem.mk ItemType.Song lvl d s []) = false := rfl
  have hsong : ItemMatchesFilter g (CollectionItem.mk ItemType.Song lvl d s [])
      [("title", ⟨"title", QVal.vstr "some song", ""⟩)] ""
      = containsCI s.title "some song" := by
    simp [ItemMatchesFilter, CollectionItem.type, CollectionItem.display_text,
      CollectionItem.metadata, CollectionItem.container_level,
      ItemMetadataMatches, entryPasses, DataFromField, metaTypeEq, metaTag,
      FieldValueMatchesData, qvalToString, qvalValid, hv]
  have hrest : ancestorLoop g
      [("title", ⟨"title", QVal.vstr "some song", ""⟩)] "" anc = false := by
    clear hcm hsong
    induction anc with
    | nil => rfl
    | cons a rest ih =>
      have hal := ha a (List.mem_cons_self _ _)
      by_cases hroot : a.type = ItemType.Root
      · exact ancestorLoop_cons_root _ _ _ _ _ hroot
      · rw [ancestorLoop_cons _ _ _ _ _ hroot,
            ih (fun x hx => ha x (List.mem_cons_of_mem _ hx)),
            IMF_title_nonsong g a hal.1 hal.2]
        rfl
  rw [ancestorLoop_cons _ _ _ _ _ (by intro h; cases h), hrest, hcm, hsong]
  cases hx : containsCI s.title "some song" <;> rfl

theorem c6_quoted_phrase_witness :
    filterAcceptsRow G0
      (CollectionItem.mk ItemType.Song (-1) "d"
        (songTitled "AAA Some Song BBB") [])
      [artistItem, rootItem] "title:\"some song\"" = true ∧
    filterAcceptsRow G0
      (CollectionItem.mk ItemType.Song (-1) "d"
        (songTitled "some nice song") [])
      [artistItem, rootItem] "title:\"some song\"" = false := by
  constructor
  · rw [c6_quoted_phrase G0 (songTitled "AAA Some Song BBB") (-1) "d"
        [artistItem, rootItem] rfl (by decide)]
    decide
  · rw [c6_quoted_phrase G0 (songTitled "some nice song") (-1) "d"
        [artistItem, rootItem] rfl (by decide)]
    decide

/-- Claim C7 is a code bug: the claim (and spec: "Field name matching
is case-insensitive") requires `YEAR=1976` to behave like `year=1976`,
and the parser does recognise the upper-case field case-insensitively
(it produces an `int` predicate keyed `"YEAR"`), but
`CollectionFilter::DataFromField` compares field names case-sensitively
and returns the invalid `QVariant` for `"YEAR"`, so the strict type
gate rejects every record: the same song is accepted under the
lower-case filter and rejected under the upper-case one. -/
theorem c7_field_case_bug :
    filterAcceptsRow G0 (songItemOf (songOfYear 1976) "Whatever Song")
        [artistItem, rootItem] "year=1976" = true ∧
    filterAcceptsRow G0 (songItemOf (songOfYear 1976) "Whatever Song")
        [artistItem, rootItem] "YEAR=1976" = false ∧
    parseFilter "YEAR=1976"
      = ([("YEAR", ⟨"YEAR", QVal.vint 1976, "="⟩)], "") ∧
    DataFromField "YEAR" (songOfYear 1976) = QVal.invalid := by
  refine ⟨by decide, by decide, by decide, rfl⟩

theorem stringMk_toList (s : String) : String.mk s.toList = s := rfl

theorem dropWS_of_wsFree (cs : List Char)
    (h : cs.all (fun c => !isWS c) = true) : dropWS cs = cs := by
  unfold dropWS
  cases cs with
  | nil => rfl
  | cons c cs' =>
    have hc := List.all_eq_true.mp h c (List.mem_cons_self _ _)
    rw [List.dropWhile_cons, if_neg (by simp_all)]

theorem startsWithL_decomp (pat : List Char) :
    ∀ cs : List Char, startsWithL cs pat = true →
      cs = pat ++ cs.drop pat.length := by
  induction pat with
  | nil => intro cs _; simp
  | cons b bs ih =>
    intro cs h
    cases cs with
    | nil => cases h
    | cons a as =>
      unfold startsWithL at h
      rw [Bool.and_eq_true] at h
      have hab : a = b := eq_of_beq h.1
      have := ih as h.2
      simp only [List.cons_append, List.length_cons, List.drop_succ_cons]
      rw [hab, ← this]

theorem all_drop_of_all (p : Char → Bool) (cs : List Char) (n : Nat)
    (h : cs.all p = true) : (cs.drop n).all p = true := by
  rw [List.all_eq_true] at h ⊢
  intro x hx
  exact h x (List.mem_of_mem_drop hx)

theorem all_tail_of_all (p : Char → Bool) (c : Char) (cs : List Char)
    (h : (c :: cs).all p = true) : cs.all p = true := by
  rw [List.all_cons, Bool.and_eq_true] at h
  exact h.2

theorem replacePassAux_wsFree (op : List Char) :
    ∀ (fuel : Nat) (cs : List Char), cs.all (fun c => !isWS c) = true →
      replacePassAux op fuel cs = cs := by
  intro fuel
  induction fuel with
  | zero => intro cs _; rfl
  | succ n ih =>
    intro cs h
    cases cs with
    | nil => rfl
    | cons c cs' =>
      unfold replacePassAux
      by_cases hm : matchHere op (c :: cs') = true
      · rw [if_pos hm]
        unfold matchHere at hm
        rw [Bool.and_eq_true] at hm
        have hdws : dropWS (c :: cs') = c :: cs' := dropWS_of_wsFree _ h
        rw [hdws] at hm
        have hdec := startsWithL_decomp op _ hm.2
        have hall : ((c :: cs').drop op.length).all (fun c => !isWS c) = true :=
          all_drop_of_all _ _ _ h
        have hafter : afterMatch op (c :: cs') = (c :: cs').drop op.length := by
          unfold afterMatch
          rw [hdws]
          exact dropWS_of_wsFree _ hall
        rw [hafter, ih _ hall]
        exact hdec.symm
      · rw [if_neg hm, ih cs' (all_tail_of_all _ _ _ h)]

theorem replacePass_wsFree (op : String) (cs : List Char)
    (h : cs.all (fun c => !isWS c) = true) : replacePass op cs = cs :=
  replacePassAux_wsFree op.toList cs.length cs h

theorem normalizeOps_wsFree (s : String) (h : wsFreeS s = true) :
    normalizeOps s = s := by
  unfold normalizeOps
  unfold wsFreeS at h
  rw [replacePass_wsFree ":" _ h, replacePass_wsFree "=" _ h,
      replacePass_wsFree "==" _ h, replacePass_wsFree "<>" _ h,
      replacePass_wsFree "<" _ h, replacePass_wsFree ">" _ h,
      replacePass_wsFree "<=" _ h, replacePass_wsFree ">=" _ h]
  exact stringMk_toList s

theorem toList_ne_nil_of_ne_empty (s : String) (h : s ≠ "") :
    s.toList ≠ [] := by
  intro h0
  apply h
  cases s with
  | mk data =>
    cases h0
    rfl

theorem splitWSAux_nonws :
    ∀ (cs acc : List Char), cs.all (fun c => !isWS c) = true →
      (acc ≠ [] ∨ cs ≠ []) →
      splitWSAux cs acc = [String.mk (acc.reverse ++ cs)] := by
  intro cs
  induction cs with
  | nil =>
    intro acc _ hne
    have hacc : acc ≠ [] := by
      rcases hne with h | h
      · exact h
      · exact absurd rfl h
    unfold splitWSAux
    rw [if_neg (by simpa using hacc)]
    simp
  | cons c cs' ih =>
    intro acc h _hne
    have hc := List.all_eq_true.mp h c (List.mem_cons_self _ _)
    unfold splitWSAux
    rw [if_neg (by simp_all)]
    rw [ih (c :: acc) (all_tail_of_all _ _ _ h) (Or.inl (by simp))]
    simp

theorem splitWS_single (s : String) (h : wsFreeS s = true) (hne : s ≠ "") :
    splitWS s = [s] := by
  unfold splitWS
  rw [splitWSAux_nonws s.toList [] h (Or.inr (toList_ne_nil_of_ne_empty s hne))]
  simp [stringMk_toList]

theorem tok_ne_empty_of_op (tok : String) (fop : String)
    (hop : firstOpMatch tok.toList = some fop) : tok ≠ "" := by
  intro h0
  rw [h0] at hop
  cases hop

/-- Claim C8: a token of the form `field<op>value` whose field is a
known int or unsigned column (case-insensitively) and whose value fails
the numeric conversion to that column's native type produces no
predicate; the whole token is appended to the residual free text
instead, and the parse is a total function (no failure path exists in
the embedding).  The free text is matched case-insensitively against
display text by `ItemMatchesFilter` (claim C2/C1). -/
theorem c8_parse_failure_free_text (tok : String) (fop : String)
    (rest : List String) (fdl : FilterDataList) (ft : String)
    (hcolon : hasColonTok tok = false)
    (hop : firstOpMatch tok.toList = some fop)
    (hvne : opValue fop tok ≠ "")
    (hfail :
      (memCI kIntSearchColumns (opField fop tok) = true ∧
       qtoInt? (opValue fop tok) = none) ∨
      (memCI kIntSearchColumns (opField fop tok) = false ∧
       memCI kUIntSearchColumns (opField fop tok) = true ∧
       qtoUInt? (opValue fop tok) = none)) :
    parseTokens (tok :: rest) fdl ft
      = parseTokens rest fdl (appendFT ft tok) := by
  rw [parseTokens_cons]
  have hstep : parseStep tok rest fdl ft = (rest, fdl, appendFT ft tok) := by
    simp only [parseStep]
    rw [if_neg (by simp [hcolon])]
    simp only [hop]
    rw [if_neg hvne]
    rcases hfail with ⟨hint, hconv⟩ | ⟨hnint, huint, hconv⟩
    · rw [if_pos (memCI_int_num _ hint), if_pos hint]
      simp only [hconv]
    · rw [if_pos (memCI_uint_num _ huint), if_neg (by simp [hnint]),
          if_pos huint]
      simp only [hconv]
  rw [hstep]

theorem c8_parse_failure_free_text_witness :
    parseTokens ["year>abc"] [] ""
      = parseTokens [] [] (appendFT "" "year>abc") ∧
    parseFilter "year>abc" = ([], "year>abc") ∧
    parseFilter "playcount>-3" = ([], "playcount>-3") := by
  refine ⟨?_, by decide, by decide⟩
  exact c8_parse_failure_free_text "year>abc" ">" [] [] "" (by decide)
    (by decide) (by decide) (Or.inl ⟨by decide, by decide⟩)

theorem IMF_freetext (g : Grouping) (x : CollectionItem)
    (fdl : FilterDataList) (ft : String) (hft : ft ≠ "")
    (h : ItemMatchesFilter g x fdl ft = true) :
    containsCI x.display_text ft = true := by
  unfold ItemMatchesFilter at h
  rw [Bool.and_eq_true] at h
  have h1 := h.1
  rw [Bool.or_eq_true] at h1
  rcases h1 with h1 | h1
  · exact absurd (of_decide_eq_true h1) hft
  · exact h1

/-- Claim C9: a colon-free token `rating<op>value` inserts a rating
predicate into the predicate map AND is additionally appended to the
residual free text (the rating branch has no `continue`); consequently,
when the filter consists of exactly that token, a (non-loading) row is
accepted only if the literal token occurs case-insensitively in the
display text of the node itself, of an ancestor below the Root, or of a
descendant. -/
theorem c9_rating_also_free_text (tok : String) (fop : String)
    (rest : List String) (fdl : FilterDataList) (ft : String)
    (hcolon : hasColonTok tok = false)
    (hop : firstOpMatch tok.toList = some fop)
    (hvne : opValue fop tok ≠ "")
    (hrating : compareCI (opField fop tok) "rating" = true)
    (hws : wsFreeS tok = true) :
    parseTokens (tok :: rest) fdl ft
      = parseTokens rest
          (fdlInsert (opField fop tok)
            ⟨opField fop tok,
             QVal.vfloat (ParseSearchRating (opValue fop tok)), fop⟩ fdl)
          (appendFT ft tok) ∧
    (∀ (g : Grouping) (item : CollectionItem) (anc : List CollectionItem),
      item.type ≠ ItemType.LoadingIndicator →
      filterAcceptsRow g item anc tok = true →
      containsCI item.display_text tok = true ∨
      (∃ p ∈ ancestorsBelowRoot anc, containsCI p.display_text tok = true) ∨
      (∃ d ∈ descendantsList item, containsCI d.display_text tok = true)) := by
  have hne : tok ≠ "" := tok_ne_empty_of_op tok fop hop
  have hstep : parseStep tok rest fdl ft
      = (rest,
         fdlInsert (opField fop tok)
           ⟨opField fop tok,
            QVal.vfloat (ParseSearchRating (opValue fop tok)), fop⟩ fdl,
         appendFT ft tok) := by
    simp only [parseStep]
    rw [if_neg (by simp [hcolon])]
    simp only [hop]
    rw [if_neg hvne, if_pos (ratingField_num _ hrating),
        if_neg (by simp [ratingField_not_int _ hrating]),
        if_neg (by simp [ratingField_not_uint _ hrating]),
        if_neg (by simp [ratingField_not_length _ hrating]),
        if_pos hrating]
  constructor
  · rw [parseTokens_cons, hstep]
  · intro g item anc hli hacc
    have hpf : parseFilter tok
        = (fdlInsert (opField fop tok)
            ⟨opField fop tok,
             QVal.vfloat (ParseSearchRating (opValue fop tok)), fop⟩ [],
           tok) := by
      unfold parseFilter
      rw [normalizeOps_wsFree tok hws, splitWS_single tok hws hne]
      have hstep' : parseStep tok [] [] ""
          = ([],
             fdlInsert (opField fop tok)
               ⟨opField fop tok,
                QVal.vfloat (ParseSearchRating (opValue fop tok)), fop⟩ [],
             appendFT "" tok) := by
        simp only [parseStep]
        rw [if_neg (by simp [hcolon])]
        simp only [hop]
        rw [if_neg hvne, if_pos (ratingField_num _ hrating),
            if_neg (by simp [ratingField_not_int _ hrating]),
            if_neg (by simp [ratingField_not_uint _ hrating]),
            if_neg (by simp [ratingField_not_length _ hrating]),
            if_pos hrating]
      rw [parseTokens_cons, hstep']
      show ((fdlInsert (opField fop tok) _ []), appendFT "" tok) = _
      unfold appendFT
      rw [if_pos rfl]
    unfold filterAcceptsRow at hacc
    rw [if_neg hli, if_neg hne, hpf] at hacc
    rw [Bool.or_eq_true, Bool.or_eq_true] at hacc
    rcases hacc with (hm | hl) | hc
    · exact Or.inl (IMF_freetext _ _ _ _ hne hm)
    · by_cases hr : item.type = ItemType.Root
      · rw [ancestorLoop_cons_root _ _ _ _ _ hr] at hl
        cases hl
      · rw [ancestorLoop_cons _ _ _ _ _ hr, Bool.or_eq_true] at hl
        rcases hl with hl | hl
        · exact Or.inl (IMF_freetext _ _ _ _ hne hl)
        · rw [ancestorLoop_iff] at hl
          rcases hl with ⟨p, hp, hm⟩
          exact Or.inr (Or.inl ⟨p, hp, IMF_freetext _ _ _ _ hne hm⟩)
    · rw [ChildrenMatches_iff] at hc
      rcases hc with ⟨d, hd, hm⟩
      exact Or.inr (Or.inr ⟨d, hd, IMF_freetext _ _ _ _ hne hm⟩)

theorem c9_rating_also_free_text_witness :
    parseTokens ["rating>=4"] [] ""
      = parseTokens []
          (fdlInsert "rating"
            ⟨"rating", QVal.vfloat (ParseSearchRating "4"), ">="⟩ [])
          (appendFT "" "rating>=4") ∧
    filterAcceptsRow G0
      (songItemOf ⟨true, "", "", "", "T", "", "", "", "", "",
        0, 0, 0, 0, 0, 0, 5, 0, 0⟩ "My Song") [artistItem, rootItem]
      "rating>=4" = false := by
  constructor
  · exact (c9_rating_also_free_text "rating>=4" ">=" [] [] "" (by decide)
      (by decide) (by decide) (by decide) (by decide)).1
  · decide

theorem quoteStart_noquote (v : String)
    (h : v.toList.head? ≠ some '"') :
    quoteStart v = (v, false, false) := by
  unfold quoteStart
  split
  · rename_i rest heq
    exact absurd (by rw [heq]; rfl) h
  · rfl

theorem absorb_false_spec :
    ∀ (ts : List String) (v : String),
      absorb false ts v =
        (joinSp v (ts.takeWhile (fun x => !ContainsOperators x)),
         ts.dropWhile (fun x => !ContainsOperators x)) := by
  intro ts
  induction ts with
  | nil => intro v; simp [absorb, joinSp]
  | cons t ts' ih =>
    intro v
    unfold absorb
    by_cases hco : ContainsOperators t = true
    · rw [if_pos ⟨rfl, hco⟩, List.takeWhile_cons, List.dropWhile_cons]
      simp [hco, joinSp]
    · rw [if_neg (by simp [hco]), if_neg (by simp), ih (v ++ " " ++ t),
          List.takeWhile_cons, List.dropWhile_cons]
      have hco' : ContainsOperators t = false := by
        cases hx : ContainsOperators t
        · rfl
        · exact absurd hx hco
      rw [hco']
      simp [joinSp]

theorem string_append_ne_empty (a b c : String) (hb : b = " ") :
    a ++ b ++ c ≠ "" := by
  intro h0
  have := congrArg String.length h0
  rw [String.length_append, String.length_append, hb] at this
  simp at this
  exact absurd this.1.2 (by decide)

theorem joinSp_ne_empty (l : List String) :
    ∀ (v : String), v ≠ "" → joinSp v l ≠ "" := by
  induction l with
  | nil => intro v hv; exact hv
  | cons t ts ih =>
    intro v hv
    unfold joinSp at *
    rw [List.foldl_cons]
    exact ih _ (string_append_ne_empty v " " t rfl)

/-- Claim C10: a text-column token `field:value` whose value does not
start with a quotation mark absorbs every following whitespace token up
to (but not including) the first one containing an operator character
(`ContainsOperators`, which tests the operator strings `:`, `=`, `==`,
`<>`, `<`, `<=`, `>`, `>=`) into the predicate's value, space-joined;
parsing then resumes at the stopping token, so the absorbed tokens
contribute nothing to the residual free text. -/
theorem c10_unquoted_absorption (tok : String) (rest : List String)
    (fdl : FilterDataList) (ft : String)
    (hcolon : hasColonTok tok = true)
    (hfne : colonField tok ≠ "") (hvne : colonValue tok ≠ "")
    (htext : memCI kTextSearchColumns (colonField tok) = true)
    (hq2 : countChar '"' (colonValue tok) ≤ 2)
    (hnq : (colonValue tok).toList.head? ≠ some '"') :
    parseTokens (tok :: rest) fdl ft
      = parseTokens (rest.dropWhile (fun x => !ContainsOperators x))
          (fdlInsert (colonField tok)
            ⟨colonField tok,
             QVal.vstr (joinSp (colonValue tok)
               (rest.takeWhile (fun x => !ContainsOperators x))), ""⟩ fdl)
          ft := by
  rw [parseTokens_cons]
  have habs : phraseValue (colonValue tok) rest
      = (joinSp (colonValue tok)
          (rest.takeWhile (fun x => !ContainsOperators x)),
         rest.dropWhile (fun x => !ContainsOperators x)) := by
    unfold phraseValue
    rw [quoteStart_noquote _ hnq]
    rw [if_neg (by simp)]
    exact absorb_false_spec rest (colonValue tok)
  have hstep : parseStep tok rest fdl ft
      = (rest.dropWhile (fun x => !ContainsOperators x),
         fdlInsert (colonField tok)
           ⟨colonField tok,
            QVal.vstr (joinSp (colonValue tok)
              (rest.takeWhile (fun x => !ContainsOperators x))), ""⟩ fdl,
         ft) := by
    simp only [parseStep]
    rw [if_pos hcolon, if_neg (by simp [hfne, hvne]), if_pos ⟨htext, hq2⟩,
        habs]
    rw [if_pos ⟨hfne, joinSp_ne_empty _ _ hvne⟩]
  rw [hstep]

theorem c10_unquoted_absorption_witness :
    parseTokens ["artist:the", "beach", "boys", "year<1990"] [] ""
      = parseTokens ["year<1990"]
          (fdlInsert "artist"
            ⟨"artist", QVal.vstr (joinSp "the" ["beach", "boys"]), ""⟩ []) "" ∧
    parseFilter "artist:the beach boys year<1990"
      = ([("artist", ⟨"artist", QVal.vstr "the beach boys", ""⟩),
          ("year", ⟨"year", QVal.vint 1990, "<"⟩)], "") := by
  constructor
  · exact c10_unquoted_absorption "artist:the" ["beach", "boys", "year<1990"]
      [] "" (by decide) (by decide) (by decide) (by decide) (by decide)
      (by decide)
  · decide

/-- Claim C1 counterexample: a LoadingIndicator row is accepted under
the non-empty filter "zzz" although neither the node itself nor any
ancestor nor any descendant matches the parsed filter — line 55 of
`filterAcceptsRow` accepts such rows before the filter is even parsed,
so the claimed if-and-only-if fails at this node. -/
theorem c1_counterexample :
    filterAcceptsRow G0 loadingItem [] "zzz" = true ∧
    ¬ C1Visible G0 loadingItem []
        (parseFilter "zzz").1 (parseFilter "zzz").2 := by
  constructor
  · decide
  · unfold C1Visible
    rintro (hm | ⟨p, hp, _⟩ | ⟨d, hd, _⟩)
    · exact absurd hm (by decide)
    · rw [show ancestorsBelowRoot ([] : List CollectionItem) = [] from rfl]
        at hp
      cases hp
    · rw [show descendantsList loadingItem = [] from rfl] at hd
      cases hd

/-- Claim C1 (amended): for every node that is not a LoadingIndicator
row and every non-empty filter string, `filterAcceptsRow` accepts the
node's row if and only if the node itself matches the parsed filter, or
some ancestor strictly below the Root matches, or some descendant at
any depth matches (`C1Visible`); the hypothesis that a Root-typed node
has no ancestors states the tree invariant that the Root is the top of
every parent chain.  An empty filter string accepts every row, and a
LoadingIndicator row is always accepted. -/
theorem c1_visibility :
    (∀ (g : Grouping) (item : CollectionItem) (anc : List CollectionItem)
       (f0 : String), item.type ≠ ItemType.LoadingIndicator → f0 ≠ "" →
       (item.type = ItemType.Root → anc = []) →
       (filterAcceptsRow g item anc f0 = true ↔
         C1Visible g item anc (parseFilter f0).1 (parseFilter f0).2)) ∧
    (∀ (g : Grouping) (item : CollectionItem) (anc : List CollectionItem),
       filterAcceptsRow g item anc "" = true) ∧
    (∀ (g : Grouping) (item : CollectionItem) (anc : List CollectionItem)
       (f0 : String), item.type = ItemType.LoadingIndicator →
       filterAcceptsRow g item anc f0 = true) := by
  refine ⟨?_, ?_, ?_⟩
  · intro g item anc f0 hli hne hroot
    unfold filterAcceptsRow C1Visible
    rw [if_neg hli, if_neg hne, Bool.or_eq_true, Bool.or_eq_true,
        ChildrenMatches_iff]
    by_cases hr : item.type = ItemType.Root
    · rw [hroot hr, ancestorLoop_cons_root _ _ _ _ _ hr,
          show ancestorsBelowRoot ([] : List CollectionItem) = [] from rfl]
      simp
    · rw [ancestorLoop_cons _ _ _ _ _ hr, Bool.or_eq_true, ancestorLoop_iff]
      constructor
      · rintro ((h | h | ⟨p, hp, hm⟩) | h)
        · exact Or.inl h
        · exact Or.inl h
        · exact Or.inr (Or.inl ⟨p, hp, hm⟩)
        · exact Or.inr (Or.inr h)
      · rintro (h | ⟨p, hp, hm⟩ | h)
        · exact Or.inl (Or.inl h)
        · exact Or.inl (Or.inr (Or.inr ⟨p, hp, hm⟩))
        · exact Or.inr h
  · intro g item anc
    unfold filterAcceptsRow
    by_cases h : item.type = ItemType.LoadingIndicator
    · rw [if_pos h]
    · rw [if_neg h, if_pos rfl]
  · intro g item anc f0 h
    unfold filterAcceptsRow
    rw [if_pos h]

theorem c1_visibility_witness :
    (filterAcceptsRow G0 (songItemOf (songOfYear 5) "x")
        [artistItem, rootItem] "abc" = true ↔
      C1Visible G0 (songItemOf (songOfYear 5) "x") [artistItem, rootItem]
        (parseFilter "abc").1 (parseFilter "abc").2) ∧
    filterAcceptsRow G0 artistItem [rootItem] "" = true :=
  ⟨c1_visibility.1 G0 (songItemOf (songOfYear 5) "x") [artistItem, rootItem]
      "abc" (by rw [songItemOf_type]; decide) (by decide)
      (by rw [songItemOf_type]; intro h; exact absurd h (by decide)),
   c1_visibility.2.1 G0 artistItem [rootItem]⟩
